import Mathlib

/-!
Verification of the ERC-8004 agent registration script
(`src/my-agent/src/register.ts`).

The script performs one registration run: it reads `registration.json`,
encodes its bytes as a base64 `data:` URI, submits a `register(agentURI)`
transaction to the Identity Registry contract, waits for the receipt,
extracts the `agentId` from the `Registered` event log, and writes the
updated record back to `registration.json`.

The development below is a shallow embedding of that script: pure parts
(base64 encoding, log matching and event decoding, the construction of the
`registrations` entry, the `parseInt(agentId.toString(), 10)` narrowing)
are translated into executable Lean functions; the effectful run of
`main()` is a function from an environment (the outcomes of the external
operations: env reads, file reads, the RPC calls, the final write) and the
pre-run disk state to an outcome and a post-run disk state.
-/

/-! ## Contract configuration (register.ts lines 40-51) -/

/-- Identity Registry contract address on Base Sepolia (register.ts line 51). -/
def IDENTITY_REGISTRY : String := "0x8004AA63c570c570eBF15376c0dB199918BFe9Fb"

/-- Keccak hash of the Registered event signature (register.ts line 113). -/
def REGISTERED_EVENT_SIG : String :=
  "0xca52e62c367d81bb2e328eb795f7c7ba24afb478408a26c0e201d155c449bc4a"

/-- The registry locator string, built by the template literal
at register.ts line 151: the chain id 84532 is written literally there. -/
def registryLocator : String := "eip155:84532:" ++ IDENTITY_REGISTRY

/-! ## Hex parsing

`viem` represents log topics and log data as `0x`-headed hex strings and
parses them when decoding an event log.  These helpers model that parsing:
a topic is exactly 32 bytes (64 hex digits), log data is any even run of
hex digits. -/

/-- Value of one hex digit, accepting both cases. -/
def hexVal (c : Char) : Option ℕ :=
  let n := c.toNat
  if 48 ≤ n ∧ n ≤ 57 then some (n - 48)
  else if 97 ≤ n ∧ n ≤ 102 then some (n - 87)
  else if 65 ≤ n ∧ n ≤ 70 then some (n - 55)
  else none

/-- Accumulate a big-endian hex digit run into a natural number. -/
def hexDigitsAux : List Char → ℕ → Option ℕ
  | [], acc => some acc
  | c :: cs, acc =>
    match hexVal c with
    | some v => hexDigitsAux cs (acc * 16 + v)
    | none => none

/-- Parse a 32-byte topic word: the marker `0x` followed by exactly 64 hex
digits, as `viem` requires of an event topic. -/
def parseHexWord (s : String) : Option ℕ :=
  match s.toList with
  | '0' :: 'x' :: rest => if rest.length = 64 then hexDigitsAux rest 0 else none
  | _ => none

/-- Parse pairs of hex digits into bytes. -/
def hexBytesAux : List Char → Option (List ℕ)
  | [] => some []
  | [_] => none
  | c1 :: c2 :: rest =>
    match hexVal c1, hexVal c2, hexBytesAux rest with
    | some h, some l, some tail => some ((h * 16 + l) :: tail)
    | _, _, _ => none

/-- Parse a `0x`-headed hex string into its byte sequence. -/
def hexToBytes (s : String) : Option (List ℕ) :=
  match s.toList with
  | '0' :: 'x' :: rest => hexBytesAux rest
  | _ => none

/-! ## Event logs and the Registered event decoder (register.ts lines 112-136) -/

/-- One entry of `receipt.logs` as the script consumes it: the emitting
contract address, the topic words, and the ABI-encoded data, all hex
strings as delivered by the RPC layer. -/
structure Log where
  address : String
  topics : List String
  data : String
deriving DecidableEq

/-- The decoded Registered event
(`event Registered(uint256 indexed agentId, string agentURI, address indexed owner)`,
register.ts line 35): `agentId` and `owner` are indexed and come from the
topics, `agentURI` is the ABI-encoded string in the data field. -/
structure RegisteredEvent where
  agentId : ℕ
  agentURI : List ℕ
  owner : ℕ
deriving DecidableEq

/-- Lower-cased character sequence of a string, modelling the JavaScript
`toLowerCase()` applied to the ASCII hex addresses compared at
register.ts lines 116-117. -/
def lowercase (s : String) : List Char := s.toList.map Char.toLower

/-- The predicate of the `receipt.logs.find` call at register.ts
lines 115-119: the log's source address equals the registry address up to
case, and its first topic equals the Registered event signature hash. -/
def isRegisteredLog (log : Log) : Bool :=
  (lowercase log.address == lowercase IDENTITY_REGISTRY) &&
  (log.topics.head? == some REGISTERED_EVENT_SIG)

/-- Big-endian 32-byte word read from a byte sequence at a given offset. -/
def wordAt (bs : List ℕ) (off : ℕ) : ℕ :=
  ((bs.drop off).take 32).foldl (fun a b => a * 256 + b) 0

/-- ABI decoding of a dynamic `string` value from event data: a 32-byte
offset word, then at that offset a 32-byte length word followed by the
string bytes.  Yields `none` when the data is too short or the offsets do
not fit, which is the malformed-data case in which `viem` throws. -/
def abiDecodeString (bs : List ℕ) : Option (List ℕ) :=
  if 32 ≤ bs.length then
    let off := wordAt bs 0
    if off + 32 ≤ bs.length then
      let len := wordAt bs off
      if off + 32 + len ≤ bs.length then some ((bs.drop (off + 32)).take len)
      else none
    else none
  else none

/-- Model of the `decodeEventLog` call at register.ts lines 123-127 against
the two-entry ABI of register.ts lines 33-36, together with the
`decoded.eventName` guard at line 128: the log must carry exactly the
selector topic plus the two indexed words, and its data must ABI-decode as
a string; any violation makes `decodeEventLog` throw, which the script's
`try`/`catch` turns into the unresolved outcome, so the model yields
`none` there. -/
def decodeRegisteredLog (log : Log) : Option RegisteredEvent :=
  match log.topics with
  | [t0, t1, t2] =>
    if t0 = REGISTERED_EVENT_SIG then
      match parseHexWord t1, parseHexWord t2, (hexToBytes log.data).bind abiDecodeString with
      | some aid, some ownerWord, some uri => some ⟨aid, uri, ownerWord % 2 ^ 160⟩
      | _, _, _ => none
    else none
  | _ => none

/-- The whole event-decoding step of register.ts lines 115-136: find the
first log matching the registry address and event signature, then decode
it; `none` models the script's `agentId = null` (no matching log, or the
caught decode failure). -/
def eventDecode (logs : List Log) : Option ℕ :=
  (logs.find? isRegisteredLog).bind fun l => (decodeRegisteredLog l).map (·.agentId)

/-! ## Base64 data URI encoding (register.ts lines 75-77)

`Buffer.from(registrationData).toString('base64')` is RFC 4648 base64 with
padding over the UTF-8 bytes of the file; the token URI is the template
literal prepending `data:application/json;base64,`.  The decoder below is
the spec's inverse direction ("decoding the URI always reproduces the
exact input bytes"): it strips the same URI header and inverts the base64
chunks strictly. -/

/-- Character of one six-bit group, the standard base64 alphabet
`A`-`Z`, `a`-`z`, `0`-`9`, `+`, `/` written out arithmetically over
character codes. -/
def b64Char (n : ℕ) : Char :=
  Char.ofNat
    (if n < 26 then 65 + n
     else if n < 52 then 71 + n
     else if n < 62 then n - 4
     else if n = 62 then 43
     else 47)

/-- Six-bit value of a base64 alphabet character; `none` on anything
outside the alphabet. -/
def b64Val (c : Char) : Option ℕ :=
  let n := c.toNat
  if 65 ≤ n ∧ n ≤ 90 then some (n - 65)
  else if 97 ≤ n ∧ n ≤ 122 then some (n - 71)
  else if 48 ≤ n ∧ n ≤ 57 then some (n + 4)
  else if n = 43 then some 62
  else if n = 47 then some 63
  else none

/-- RFC 4648 base64 with padding, as produced by
`Buffer.toString('base64')`: three bytes become four characters, a final
one- or two-byte group is padded with `=`. -/
def base64Encode : List ℕ → List Char
  | [] => []
  | [a] => [b64Char (a / 4), b64Char (a % 4 * 16), '=', '=']
  | [a, b] => [b64Char (a / 4), b64Char (a % 4 * 16 + b / 16), b64Char (b % 16 * 4), '=']
  | a :: b :: c :: rest =>
    b64Char (a / 4) :: b64Char (a % 4 * 16 + b / 16) ::
    b64Char (b % 16 * 4 + c / 64) :: b64Char (c % 64) :: base64Encode rest

/-- Strict inverse of `base64Encode`: four characters at a time, with the
two padded forms only in final position and with the unused low bits of
the last data character required to be zero. -/
def base64Decode : List Char → Option (List ℕ)
  | [] => some []
  | c0 :: c1 :: c2 :: c3 :: rest =>
    match b64Val c0, b64Val c1 with
    | some s0, some s1 =>
      if c2 = '=' then
        if c3 = '=' ∧ rest = [] ∧ s1 % 16 = 0 then some [s0 * 4 + s1 / 16] else none
      else
        match b64Val c2 with
        | some s2 =>
          if c3 = '=' then
            if rest = [] ∧ s2 % 4 = 0 then
              some [s0 * 4 + s1 / 16, s1 % 16 * 16 + s2 / 4]
            else none
          else
            match b64Val c3 with
            | some s3 =>
              (base64Decode rest).map fun tail =>
                (s0 * 4 + s1 / 16) :: (s1 % 16 * 16 + s2 / 4) :: (s2 % 4 * 64 + s3) :: tail
            | none => none
        | none => none
    | _, _ => none
  | _ => none

/-- The data URI header written by the template literal at
register.ts line 77. -/
def uriHeader : List Char := ("data:application/json;base64,").toList

/-- The metadata encoder of register.ts lines 76-77: base64 of the raw
file bytes behind the `data:application/json;base64,` header. -/
def encodeMetadataURI (M : List ℕ) : String :=
  String.mk (uriHeader ++ base64Encode M)

/-- The inverse direction of the encoder, per the spec's reversibility
invariant: strip the URI header and invert the base64 payload. -/
def decodeMetadataURI (u : String) : Option (List ℕ) :=
  let cs := u.toList
  if cs.take uriHeader.length = uriHeader then base64Decode (cs.drop uriHeader.length)
  else none

/-! ## The agentId narrowing (register.ts lines 130, 150)

`decodeEventLog` yields `agentId` as a `bigint`; the script stores
`agentId.toString()` and persists `parseInt(agentId, 10)`.  `parseInt`
reads the decimal digits back as an exact integer and converts it to an
IEEE-754 double by round-to-nearest, ties-to-even, which is the identity
below 2^53 and may round above it. -/

/-- Round a natural number to the nearest IEEE-754 double (53-bit
significand, ties to even).  Any value whose bit length is at most 53 is
representable exactly; otherwise the excess low bits are rounded away.
Identifiers are 256-bit words, far below the double overflow threshold,
so no infinity case arises. -/
def roundToFloat (n : ℕ) : ℕ :=
  if Nat.size n ≤ 53 then n
  else
    let e := Nat.size n - 53
    let q := n / 2 ^ e
    let r := n % 2 ^ e
    (if 2 ^ (e - 1) < r ∨ (r = 2 ^ (e - 1) ∧ q % 2 = 1) then q + 1 else q) * 2 ^ e

/-- The persisted numeric value of a decoded identifier:
`parseInt(agentId.toString(), 10)` — the decimal digit string read back as
an exact integer, then narrowed to a double. -/
def persistAgentId (n : ℕ) : ℕ :=
  roundToFloat (Nat.ofDigits 10 (Nat.digits 10 n))

/-! ## The metadata record and the state-recording step (register.ts lines 149-153) -/

/-- The value stored in the persisted `agentId` field: the narrowed number
when the identifier was resolved, the literal string `UNKNOWN` otherwise
(register.ts line 150). -/
abbrev AgentIdField : Type := ℕ ⊕ String

/-- One entry of the `registrations` array as written at
register.ts lines 149-152. -/
structure RegEntry where
  agentId : AgentIdField
  agentRegistry : String
deriving DecidableEq

/-- The parsed `registration.json` document: its `registrations` array
plus all its other fields, which the script never touches and which are
therefore kept abstract as one opaque component. -/
structure MetadataRecord (α : Type) where
  otherFields : α
  registrations : List RegEntry
deriving DecidableEq

/-- The entry built at register.ts lines 149-152 from the decoded
identifier: `agentId ? parseInt(agentId, 10) : 'UNKNOWN'` and the
registry locator template literal. -/
def mkRegEntry (a : Option ℕ) : RegEntry :=
  { agentId := match a with
      | some n => Sum.inl (persistAgentId n)
      | none => Sum.inr "UNKNOWN"
    agentRegistry := registryLocator }

/-- The state-recording step, `registration.registrations = [{...}]` at
register.ts line 149: the whole `registrations` collection is replaced by
the one-element array; every other field of the document is untouched. -/
def recordRegistration {α : Type} (rec : MetadataRecord α) (a : Option ℕ) :
    MetadataRecord α :=
  { rec with registrations := [mkRegEntry a] }

/-! ## The run of main() (register.ts lines 57-158) as a step sequence

The effectful operations — reading `PRIVATE_KEY`, reading and parsing
`registration.json`, `writeContract`, `waitForTransactionReceipt`,
`fs.writeFile` — have their outcomes supplied by an environment; `main`
consumes them strictly in the order of the source and stops at the first
rejection.  The bounded timeout of `waitForTransactionReceipt` lives
inside the `viem` dependency, not in this repository's source, so the
wait step's outcome is modelled from the spec as either a receipt or a
`ConfirmationTimeout` (or some other transport failure). -/

/-- A transaction receipt as the script consumes it: only its ordered log
sequence is read (register.ts line 115). -/
structure Receipt where
  logs : List Log
deriving DecidableEq

/-- Modelled from the spec: failure modes of the receipt wait.
`waitForTransactionReceipt` (a `viem` call, outside this repository's
source) applies a bounded timeout and rejects with a timeout error when
the bound is exceeded, or with some other transport error. -/
inductive WaitFailure
  | timeout
  | other
deriving DecidableEq

/-- Outcomes of the external operations consumed by one run of `main`,
in source order. -/
structure Env (α : Type) where
  /-- `process.env.PRIVATE_KEY` (register.ts line 59). -/
  privateKey : Option String
  /-- the raw bytes and the parsed document of `registration.json`
  (register.ts lines 67-68); `none` when the read or the parse rejects. -/
  inputRead : Option (List ℕ × MetadataRecord α)
  /-- outcome of `walletClient.writeContract` (register.ts line 100):
  a transaction hash, or a rejection the script does not inspect. -/
  submitResult : Except Unit String
  /-- outcome of `publicClient.waitForTransactionReceipt`
  (register.ts line 108). -/
  waitResult : Except WaitFailure Receipt
  /-- whether the final `fs.writeFile` (register.ts line 153) resolves. -/
  writeOk : Bool

/-- Which await of `main` rejected; the rejection reaches the
`main().catch(console.error)` handler at register.ts line 162. -/
inductive FailReason
  | missingKey
  | readError
  | submitRejected
  | confirmationTimeout
  | waitFailed
  | writeFailed
deriving DecidableEq

/-- Result of one run of `main`: the updated document was persisted, or
the run aborted with the given step's rejection. -/
inductive Outcome (α : Type)
  | persisted (rec : MetadataRecord α)
  | aborted (r : FailReason)

/-- One run of `main` (register.ts lines 57-158) over an environment and
the pre-run on-disk bytes of `registration.json`.  The steps follow the
source strictly in order: private key check, file read and parse, base64
URI construction (its value feeds the submitted call whose outcome the
environment supplies), contract call, receipt wait, event decode, record
update, file write.  The returned disk state is the serialized updated
document on a completed write and the pre-run bytes on every earlier
abort. -/
def runMain {α : Type} (serialize : MetadataRecord α → List ℕ) (env : Env α)
    (disk : List ℕ) : Outcome α × List ℕ :=
  match env.privateKey with
  | none => (Outcome.aborted FailReason.missingKey, disk)
  | some _ =>
    match env.inputRead with
    | none => (Outcome.aborted FailReason.readError, disk)
    | some (_raw, rec) =>
      match env.submitResult with
      | Except.error _ => (Outcome.aborted FailReason.submitRejected, disk)
      | Except.ok _hash =>
        match env.waitResult with
        | Except.error WaitFailure.timeout =>
          (Outcome.aborted FailReason.confirmationTimeout, disk)
        | Except.error WaitFailure.other =>
          (Outcome.aborted FailReason.waitFailed, disk)
        | Except.ok receipt =>
          let newRec := recordRegistration rec (eventDecode receipt.logs)
          if env.writeOk then (Outcome.persisted newRec, serialize newRec)
          else (Outcome.aborted FailReason.writeFailed, disk)

/-- Exit status of the process.  The whole program is
`main().catch(console.error)` (register.ts line 162): every rejection is
handled by logging it, the handler returns normally, and `process.exitCode`
is never set, so the Node process exits with status 0 on every run. -/
def processExitCode {α : Type} (_o : Outcome α) : ℕ := 0

/-- On-disk contents observable if the process stops after `k` bytes of
the `fs.writeFile` call at register.ts line 153 have been written:
`writeFile` opens the target with truncation and writes the new content in
place from the start — there is no temporary file and no rename — so the
observable state is the first `k` bytes of the new content. -/
def persistCrash (newContent : List ℕ) (k : ℕ) : List ℕ := newContent.take k

/-! ## Concrete fixtures for the witnesses -/

/-- The 32-byte topic word carrying identifier 42. -/
def topicOf42 : String :=
  "0x000000000000000000000000000000000000000000000000000000000000002a"

/-- A 32-byte topic word carrying an owner address. -/
def topicOfOwner : String :=
  "0x000000000000000000000000000000000000000000000000000000000000beef"

/-- Well-formed ABI data for the Registered event: offset word 32, length
word 1, then the single byte 0x78 right-padded to a word. -/
def exDataHex : String :=
  "0x0000000000000000000000000000000000000000000000000000000000000020" ++
  "0000000000000000000000000000000000000000000000000000000000000001" ++
  "7800000000000000000000000000000000000000000000000000000000000000"

/-- A Registered log of the registry contract (address in lower case, as
an RPC node delivers it) resolving to identifier 42. -/
def exLogGood : Log :=
  { address := "0x8004aa63c570c570ebf15376c0db199918bfe9fb"
    topics := [REGISTERED_EVENT_SIG, topicOf42, topicOfOwner]
    data := exDataHex }

/-- A log of an unrelated contract carrying the same event signature;
the address comparison rejects it. -/
def exLogOther : Log :=
  { address := "0x1111111111111111111111111111111111111111"
    topics := [REGISTERED_EVENT_SIG, topicOf42, topicOfOwner]
    data := exDataHex }

/-- A Registered log of the registry contract whose data field is
malformed (too short to ABI-decode), making the decode step fail. -/
def exLogMalformed : Log :=
  { address := "0x8004aa63c570c570ebf15376c0db199918bfe9fb"
    topics := [REGISTERED_EVENT_SIG, topicOf42, topicOfOwner]
    data := "0x" }

/-- UTF-8 bytes of the twelve-character JSON text consisting of a left
brace, the quoted word name, a colon, the quoted letter A and a right
brace. -/
def exampleBytes : List ℕ := [123, 34, 110, 97, 109, 101, 34, 58, 34, 65, 34, 125]

/-- A prior registration entry for a different network. -/
def foreignEntry : RegEntry :=
  { agentId := Sum.inl 7
    agentRegistry := "eip155:1:0x1111111111111111111111111111111111111111" }

/-- A concrete input record carrying a prior entry for another network. -/
def exRecordPrior : MetadataRecord Unit :=
  { otherFields := (), registrations := [foreignEntry] }

/-- An environment in which the private key is absent, so the very first
step of `main` rejects. -/
def envMissingKey : Env Unit :=
  { privateKey := none
    inputRead := none
    submitResult := Except.error ()
    waitResult := Except.error WaitFailure.other
    writeOk := false }

/-! ## Helper lemmas -/

/-- Decoding a base64 alphabet character recovers its six-bit value. -/
lemma b64Val_b64Char : ∀ s < 64, b64Val (b64Char s) = some s := by decide

/-- No base64 alphabet character is the padding character. -/
lemma b64Char_ne_pad : ∀ s < 64, b64Char s ≠ '=' := by decide

/-- The base64 chunk decoder inverts the chunk encoder on byte values. -/
lemma base64Decode_base64Encode :
    ∀ M : List ℕ, (∀ b ∈ M, b < 256) → base64Decode (base64Encode M) = some M
  | [], _ => rfl
  | [a], h => by
    have ha : a < 256 := h a (by simp)
    have h0 := b64Val_b64Char (a / 4) (by omega)
    have h1 := b64Val_b64Char (a % 4 * 16) (by omega)
    simp only [base64Encode, base64Decode, h0, h1]
    have : a % 4 * 16 % 16 = 0 := by omega
    simp [this]
    omega
  | [a, b], h => by
    have ha : a < 256 := h a (by simp)
    have hb : b < 256 := h b (by simp)
    have h0 := b64Val_b64Char (a / 4) (by omega)
    have h1 := b64Val_b64Char (a % 4 * 16 + b / 16) (by omega)
    have h2 := b64Val_b64Char (b % 16 * 4) (by omega)
    have hne := b64Char_ne_pad (b % 16 * 4) (by omega)
    simp only [base64Encode, base64Decode, h0, h1, h2, if_neg hne]
    have : b % 16 * 4 % 4 = 0 := by omega
    simp [this]
    constructor <;> omega
  | a :: b :: c :: rest, h => by
    have ha : a < 256 := h a (by simp)
    have hb : b < 256 := h b (by simp)
    have hc : c < 256 := h c (by simp)
    have h0 := b64Val_b64Char (a / 4) (by omega)
    have h1 := b64Val_b64Char (a % 4 * 16 + b / 16) (by omega)
    have h2 := b64Val_b64Char (b % 16 * 4 + c / 64) (by omega)
    have h3 := b64Val_b64Char (c % 64) (by omega)
    have hne2 := b64Char_ne_pad (b % 16 * 4 + c / 64) (by omega)
    have hne3 := b64Char_ne_pad (c % 64) (by omega)
    have ih := base64Decode_base64Encode rest (fun x hx => h x (by simp [hx]))
    simp only [base64Encode, base64Decode, h0, h1, h2, h3, if_neg hne2, if_neg hne3, ih,
      Option.map_some]
    refine congrArg some ?_
    refine List.cons_eq_cons.mpr ⟨by omega, List.cons_eq_cons.mpr ⟨by omega, ?_⟩⟩
    exact List.cons_eq_cons.mpr ⟨by omega, rfl⟩

/-- A value below 2^53 is its own nearest double. -/
lemma roundToFloat_small {n : ℕ} (h : n < 2 ^ 53) : roundToFloat n = n := by
  unfold roundToFloat
  rw [if_pos (Nat.size_le.mpr h)]

/-- `parseInt(n.toString(), 10)` reads the decimal digits back exactly and
then narrows to a double. -/
lemma persistAgentId_eq (n : ℕ) : persistAgentId n = roundToFloat n := by
  rw [persistAgentId, Nat.ofDigits_digits]

/-- Identifiers below 2^53 are persisted unchanged. -/
lemma persistAgentId_small {n : ℕ} (h : n < 2 ^ 53) : persistAgentId n = n := by
  rw [persistAgentId_eq, roundToFloat_small h]

/-- `find?` skips a block of elements the predicate rejects. -/
lemma find?_append_of_none {α : Type} (p : α → Bool) (pre rest : List α)
    (h : ∀ x ∈ pre, p x = false) : (pre ++ rest).find? p = rest.find? p := by
  induction pre with
  | nil => rfl
  | cons a t ih =>
    have ha : p a = false := h a (by simp)
    rw [List.cons_append, List.find?_cons_of_neg _ (by simp [ha])]
    exact ih fun x hx => h x (by simp [hx])

/-! ## Claims -/

/-- C1: for a receipt whose log sequence contains exactly one log whose
source address equals the target contract address and whose first topic
equals the Registered event signature, carrying identifier 42, the
event-decoding step scans the sequence in order, selects that log as the
first match, decodes it, and yields the resolved identifier 42. -/
theorem c1_first_matching_log_decoded (pre post : List Log) (l : Log)
    (hpre : ∀ x ∈ pre, isRegisteredLog x = false)
    (hpost : ∀ x ∈ post, isRegisteredLog x = false)
    (hl : isRegisteredLog l = true)
    (hdec : (decodeRegisteredLog l).map RegisteredEvent.agentId = some 42) :
    (pre ++ l :: post).find? isRegisteredLog = some l ∧
    eventDecode (pre ++ l :: post) = some 42 := by
  have hfind : (pre ++ l :: post).find? isRegisteredLog = some l := by
    rw [find?_append_of_none _ _ _ hpre, List.find?_cons_of_pos _ hl]
  refine ⟨hfind, ?_⟩
  unfold eventDecode
  rw [hfind]
  exact hdec

theorem c1_witness :
    ([exLogOther] ++ exLogGood :: []).find? isRegisteredLog = some exLogGood ∧
    eventDecode ([exLogOther] ++ exLogGood :: []) = some 42 :=
  c1_first_matching_log_decoded [exLogOther] [] exLogGood
    (by decide) (by decide) (by decide) (by decide)

/-- C2: for a receipt whose logs are all from contract addresses other
than the target, and for a receipt whose matching log has malformed data
that fails to decode, the event-decoding step yields the unresolved
outcome (`agentId` stays `null`) and never raises to the caller: the
decode step is total with an `Option` result, and the run proceeds to
persistence and succeeds, writing the `UNKNOWN` sentinel. -/
theorem c2_unresolved_is_nonfatal {α : Type} (serialize : MetadataRecord α → List ℕ)
    (pk hash : String) (raw : List ℕ) (rec : MetadataRecord α) (logs : List Log)
    (disk : List ℕ)
    (h : (∀ l ∈ logs, isRegisteredLog l = false) ∨
         (∃ l, logs.find? isRegisteredLog = some l ∧ decodeRegisteredLog l = none)) :
    eventDecode logs = none ∧
    runMain serialize
        { privateKey := some pk, inputRead := some (raw, rec),
          submitResult := Except.ok hash, waitResult := Except.ok ⟨logs⟩,
          writeOk := true } disk
      = (Outcome.persisted (recordRegistration rec none),
         serialize (recordRegistration rec none)) := by
  have hdec : eventDecode logs = none := by
    rcases h with h | ⟨l, hf, hd⟩
    · unfold eventDecode
      rw [List.find?_eq_none.mpr fun x hx => by simp [h x hx]]
      rfl
    · unfold eventDecode
      rw [hf]
      simp [hd]
  exact ⟨hdec, by simp [runMain, hdec]⟩

theorem c2_witness :
    eventDecode [exLogOther] = none ∧
    runMain (fun _ => ([] : List ℕ))
        { privateKey := some "k", inputRead := some ([], exRecordPrior),
          submitResult := Except.ok "h", waitResult := Except.ok ⟨[exLogOther]⟩,
          writeOk := true } []
      = (Outcome.persisted (recordRegistration exRecordPrior none), []) :=
  c2_unresolved_is_nonfatal (fun _ => ([] : List ℕ)) "k" "h" [] exRecordPrior
    [exLogOther] [] (Or.inl (by decide))

/-- C3: for every metadata byte sequence M, decoding the URI produced by
the metadata encoder reproduces M exactly; in particular the example
twelve-byte JSON input encodes to a URI carrying the base64 text
`eyJuYW1lIjoiQSJ9` and decoding that URI recovers the input bytes. -/
theorem c3_metadata_uri_roundtrip (M : List ℕ) (h : ∀ b ∈ M, b < 256) :
    decodeMetadataURI (encodeMetadataURI M) = some M ∧
    encodeMetadataURI exampleBytes = "data:application/json;base64,eyJuYW1lIjoiQSJ9" ∧
    decodeMetadataURI "data:application/json;base64,eyJuYW1lIjoiQSJ9" = some exampleBytes := by
  refine ⟨?_, by decide, by decide⟩
  unfold encodeMetadataURI decodeMetadataURI
  have hu : (String.mk (uriHeader ++ base64Encode M)).toList
      = uriHeader ++ base64Encode M := rfl
  rw [hu]
  dsimp only
  rw [List.take_left, List.drop_left, if_pos rfl]
  exact base64Decode_base64Encode M h

theorem c3_witness :
    decodeMetadataURI (encodeMetadataURI exampleBytes) = some exampleBytes ∧
    encodeMetadataURI exampleBytes = "data:application/json;base64,eyJuYW1lIjoiQSJ9" ∧
    decodeMetadataURI "data:application/json;base64,eyJuYW1lIjoiQSJ9" = some exampleBytes :=
  c3_metadata_uri_roundtrip exampleBytes (by decide)

/-- C4: applying the state-recording step twice with the same reference
to the same input record yields a `registrations` collection with exactly
one entry, not two; re-running with an already-resolved identifier does
not silently duplicate the entry. -/
theorem c4_state_recording_idempotent {α : Type} (rec : MetadataRecord α) (a : Option ℕ) :
    recordRegistration (recordRegistration rec a) a = recordRegistration rec a ∧
    (recordRegistration (recordRegistration rec a) a).registrations.length = 1 :=
  ⟨rfl, rfl⟩

/-- C5: on a successful run the persisted document is the input document
with `registrations` set to the one-element sequence carrying the decoded
identifier (or the string `UNKNOWN`) and the locator
`eip155:84532:` followed by the contract address; for identifier 42 the
entry is exactly agentId 42 with that locator. -/
theorem c5_persisted_registrations {α : Type} (rec : MetadataRecord α) (a : Option ℕ) :
    (recordRegistration rec a).otherFields = rec.otherFields ∧
    (recordRegistration rec a).registrations = [mkRegEntry a] ∧
    mkRegEntry (some 42) = ⟨Sum.inl 42, registryLocator⟩ ∧
    mkRegEntry none = ⟨Sum.inr "UNKNOWN", registryLocator⟩ ∧
    registryLocator = "eip155:84532:" ++ IDENTITY_REGISTRY := by
  refine ⟨rfl, rfl, ?_, rfl, rfl⟩
  have h42 : persistAgentId 42 = 42 := persistAgentId_small (by norm_num)
  simp only [mkRegEntry, h42]

/-- C6 counterexample: the claim that persistence uses an atomic
write-to-temporary-then-replace discipline, so that no mid-write failure
can leave a corrupted or truncated record, fails on the code: the write
at register.ts line 153 is a direct `fs.writeFile` over the original
file, and with previous on-disk record the byte 65 and new content the
bytes 66, 66, a stop after one written byte leaves the single byte 66 on
disk — neither the previous nor the intended record. -/
theorem c6_counterexample :
    persistCrash [66, 66] 1 ≠ [65] ∧ persistCrash [66, 66] 1 ≠ [66, 66] := by decide

/-- C6 amended: persistence overwrites `registration.json` in place with
a single `fs.writeFile` — no temporary file, no rename, no
`PersistenceError` type — so a failure after `k` of the new content's
bytes have been written leaves exactly those `k` bytes, a record
different from the intended content whenever the write is incomplete. -/
theorem c6_direct_overwrite_truncates (content : List ℕ) (k : ℕ)
    (h : k < content.length) : persistCrash content k ≠ content := by
  intro he
  have hl := congrArg List.length he
  simp only [persistCrash, List.length_take] at hl
  omega

theorem c6_witness :
    1 < ([66, 66] : List ℕ).length ∧ persistCrash [66, 66] 1 ≠ [66, 66] :=
  ⟨by decide, c6_direct_overwrite_truncates [66, 66] 1 (by decide)⟩

/-- C7 counterexample: the claim that every run ending in an aborted
state yields a non-zero exit status fails on the code: in the
environment with no private key the run aborts at the very first step,
yet the process exit status is 0, because `main().catch(console.error)`
handles the rejection by logging it and never sets a non-zero exit
code. -/
theorem c7_counterexample :
    (runMain (fun _ => ([] : List ℕ)) envMissingKey []).1
      = Outcome.aborted FailReason.missingKey ∧
    processExitCode (runMain (fun _ => ([] : List ℕ)) envMissingKey []).1 = 0 :=
  ⟨rfl, rfl⟩

/-- C7 amended: the process exit status is zero on every run, aborted
runs included: `main().catch(console.error)` logs any rejection and
completes normally, so error kinds are distinguishable only in the
printed message, never in the exit status, and the tool can exit
successfully after failing to persist the outcome. -/
theorem c7_exit_code_always_zero {α : Type} (serialize : MetadataRecord α → List ℕ)
    (env : Env α) (disk : List ℕ) :
    processExitCode (runMain serialize env disk).1 = 0 := rfl

/-- C8: when the receipt wait fails with its timeout, the workflow
aborts with the confirmation-timeout reason before any write is reached:
the run's resulting disk state is exactly the pre-run state, whatever
the remaining environment would have done. -/
theorem c8_timeout_aborts_without_write {α : Type}
    (serialize : MetadataRecord α → List ℕ) (pk hash : String) (raw : List ℕ)
    (rec : MetadataRecord α) (wOk : Bool) (disk : List ℕ) :
    runMain serialize
        { privateKey := some pk, inputRead := some (raw, rec),
          submitResult := Except.ok hash,
          waitResult := Except.error WaitFailure.timeout, writeOk := wOk } disk
      = (Outcome.aborted FailReason.confirmationTimeout, disk) := rfl

/-- C9: for an input record whose prior `registrations` collection holds
an entry for a different network, the persisted collection is exactly the
one-element array with the new entry — the foreign entry is discarded,
because the whole collection is replaced — while every field of the
document other than `registrations` keeps its value. -/
theorem c9_prior_networks_discarded {α : Type} (rec : MetadataRecord α) (a : Option ℕ)
    (e : RegEntry) (he : e ∈ rec.registrations) (hloc : e.agentRegistry ≠ registryLocator) :
    (recordRegistration rec a).registrations = [mkRegEntry a] ∧
    e ∉ (recordRegistration rec a).registrations ∧
    (recordRegistration rec a).otherFields = rec.otherFields := by
  refine ⟨rfl, ?_, rfl⟩
  intro hmem
  have heq : e = mkRegEntry a := by simpa [recordRegistration] using hmem
  apply hloc
  rw [heq]
  cases a <;> rfl

theorem c9_witness :
    (recordRegistration exRecordPrior none).registrations = [mkRegEntry none] ∧
    foreignEntry ∉ (recordRegistration exRecordPrior none).registrations ∧
    (recordRegistration exRecordPrior none).otherFields = exRecordPrior.otherFields :=
  c9_prior_networks_discarded exRecordPrior none foreignEntry (by decide) (by decide)

/-- C10: the decoded identifier is a full-width integer but is persisted
through its decimal string and `parseInt` into a double-precision
number, so every identifier of at most 2^53 - 1 is persisted exactly,
while the value 2^53 + 1 is persisted as a different number. -/
theorem c10_agent_id_precision (n : ℕ) (h : n ≤ 2 ^ 53 - 1) :
    persistAgentId n = n ∧ persistAgentId (2 ^ 53 + 1) ≠ 2 ^ 53 + 1 := by
  refine ⟨persistAgentId_small (by omega), ?_⟩
  have hsize : Nat.size (2 ^ 53 + 1) = 54 := by
    have h1 : Nat.size (2 ^ 53 + 1) ≤ 54 := Nat.size_le.mpr (by norm_num)
    have h2 : 53 < Nat.size (2 ^ 53 + 1) := Nat.lt_size.mpr (by norm_num)
    omega
  rw [persistAgentId_eq]
  unfold roundToFloat
  rw [hsize]
  decide

theorem c10_witness :
    persistAgentId 42 = 42 ∧ persistAgentId (2 ^ 53 + 1) ≠ 2 ^ 53 + 1 :=
  c10_agent_id_precision 42 (by decide)
